import Mathlib

/-!
Verification of the khal-notify event notification pipeline (src/main.rs).

The Rust program is shallowly embedded: pure computations become Lean
functions over `Nat`/`Int`/`String`/`List`.  External library behaviour at
the boundary is modelled explicitly and documented at each definition:

* `unicode_segmentation`'s `graphemes(true)` cannot be reimplemented here, so
  descriptions enter the formatting stage already segmented, as the list
  `gs : List String` of grapheme clusters of the cleaned description; the
  cleaned string itself is `String.join gs` (concatenating the clusters of a
  segmentation returns the original string), so Rust's `stripped_desc.len()`
  is `(String.join gs).utf8ByteSize`.
* the `regex` engine is abstracted as a `matcher : String → List String`
  returning the whole-match strings of `URL_REGEX` on its argument, in
  occurrence order (what `url_regex.captures_iter(s)` with `cap.get(0)`
  yields in `find_links`).
* Rust `&str` comparison (`sort_unstable` on `Vec<&str>`) is byte-wise
  lexicographic on UTF-8, which coincides with Lean's code-point
  lexicographic `String` order, the order used here.
-/

/-- KhalEvent record parsed from khal's JSON output (src/main.rs lines 25-33). -/
structure KhalEvent where
  title : String
  description : String
  start_end_time_style : String
  repeat_symbol : String
  all_day : Bool
deriving DecidableEq

/-- Accessor `KhalEvent::is_all_day` (src/main.rs lines 36-38). -/
def KhalEvent.is_all_day (e : KhalEvent) : Bool :=
  e.all_day

/-- Accessor `KhalEvent::formatted_title` (src/main.rs lines 40-46): the title,
with a space and the repeat symbol appended when the symbol is non-empty. -/
def KhalEvent.formatted_title (e : KhalEvent) : String :=
  if e.repeat_symbol.isEmpty then e.title else e.title ++ " " ++ e.repeat_symbol

/-- Event filter (src/main.rs lines 183-185): when `include_all_day` is false
the event list is replaced by its `filter(|e| !e.is_all_day())`; otherwise it
is left untouched. -/
def filterEvents (include_all_day : Bool) (events : List KhalEvent) : List KhalEvent :=
  if !include_all_day then events.filter (fun e => !e.is_all_day) else events

/-- Rust `Vec::dedup` (src/main.rs line 243): removes consecutive repeated
elements.  When two adjacent elements are equal, keeping the first (Rust) or
the second (this recursion, which keeps the recursion structural) yields the
same list because the two elements are equal. -/
def dedupAdj : List String → List String
  | [] => []
  | [a] => [a]
  | a :: b :: rest => if a = b then dedupAdj (b :: rest) else a :: dedupAdj (b :: rest)

/-- Rust `Vec::sort_unstable` on the collected `&str` matches (src/main.rs
line 242): sorting in `&str`'s `Ord`, the byte-wise lexicographic order on
UTF-8, which is the code-point (character-list) lexicographic order.  The
sorted rearrangement of a list is uniquely determined by the order, and
instability only concerns the placement of equal (here identical) elements,
so insertion sort is an extensionally faithful model of `sort_unstable`.
The comparison is phrased on the character lists so that it is decidable by
structural recursion. -/
def sortStrings (l : List String) : List String :=
  l.insertionSort (fun a b => a.toList ≤ b.toList)

/-- URL list built inside `find_links` (src/main.rs lines 236-243): the
whole-match strings (`cap.get(0)`), sorted and deduplicated.  The matches are
passed in as `ms`, the output of the regex engine on the scanned text. -/
def url_matches (ms : List String) : List String :=
  dedupAdj (sortStrings ms)

/-- Clickable-link fragment rendered for one URL (src/main.rs line 246),
`format!` with the URL interpolated between `<a href="` and `"></a>`. -/
def link_fragment (url : String) : String :=
  "<a href=\"" ++ url ++ "\"></a>"

/-- Function `find_links` (src/main.rs lines 234-248) with the regex engine's
match list as input: sort, dedup, render each URL as a fragment. -/
def find_links (ms : List String) : List String :=
  (url_matches ms).map link_fragment

/-- Text scanned for links when truncation fires (src/main.rs lines 203-206).
On line 202 `desc_graphemes.by_ref().take(desc_chars).collect()` already
advanced the grapheme iterator past the first `desc_chars` clusters, so the
`desc_graphemes.by_ref().skip(desc_chars)` passed to `find_links` drops a
further `desc_chars` clusters: the scanned clusters are
`(gs.drop desc_chars).drop desc_chars`. -/
def scanned_tail (desc_chars : Nat) (gs : List String) : List String :=
  (gs.drop desc_chars).drop desc_chars

/-- Description truncation (src/main.rs lines 199-212), before the time-range
suffix of lines 213-218.  `gs` is the grapheme-cluster list of the cleaned
(stripped) description, so `String.join gs` is the cleaned description and
`(String.join gs).utf8ByteSize` is Rust's `stripped_desc.len()`.  When
`desc_chars < stripped_desc.len()`, the body is the first `desc_chars`
clusters, plus `"..."`, plus each fragment returned by `find_links` appended
in turn by the `for` loop of lines 203-208; otherwise the cleaned description
is returned unchanged.  `matcher` abstracts the regex engine (whole-match
strings of `URL_REGEX` on the argument, in occurrence order). -/
def short_desc (matcher : String → List String) (desc_chars : Nat)
    (gs : List String) : String :=
  if desc_chars < (String.join gs).utf8ByteSize then
    (find_links (matcher (String.join (scanned_tail desc_chars gs)))).foldl
      (fun d l => d ++ l) (String.join (gs.take desc_chars) ++ "...")
  else
    String.join gs

/-- Link list observable of the formatter: the deduplicated sorted URL list
that `find_links` renders when truncation fires (src/main.rs lines 199-209,
236-243), and empty when the branch on line 199 does not truncate, since
`find_links` is then never called. -/
def extracted_links (matcher : String → List String) (desc_chars : Nat)
    (gs : List String) : List String :=
  if desc_chars < (String.join gs).utf8ByteSize then
    url_matches (matcher (String.join (scanned_tail desc_chars gs)))
  else
    []

/-- Clusters of the cleaned description kept in the display body (src/main.rs
lines 199-212): the first `desc_chars` clusters when the line-199 branch
truncates, all clusters otherwise. -/
def kept_clusters (desc_chars : Nat) (gs : List String) : List String :=
  if desc_chars < (String.join gs).utf8ByteSize then gs.take desc_chars else gs

/-- Outcome of one notification thread (src/main.rs lines 191-226): `ok` when
the closure ran to completion, `panicked` when one of its `expect` calls
panicked (e.g. `notify-send` could not be spawned). -/
inductive TaskOutcome where
  | ok : TaskOutcome
  | panicked : TaskOutcome
deriving DecidableEq

/-- Dispatch fan-out (src/main.rs lines 187-228): one `thread::spawn` per
surviving event, all spawned before any join; the handle list has one entry
per event.  `notify` abstracts one thread's body (formatting plus the
`notify-send` subprocess), yielding that thread's outcome. -/
def dispatch_notifications (notify : KhalEvent → TaskOutcome)
    (events : List KhalEvent) : List TaskOutcome :=
  events.map notify

/-- Number of handles actually joined by the fan-in loop (src/main.rs lines
229-231): `handle.join().expect(..)` is applied in spawn order; a `join` that
returns `Err` (the thread panicked) makes `expect` panic the main thread, so
that join still happens but the loop stops there. -/
def joinedCount : List TaskOutcome → Nat
  | [] => 0
  | TaskOutcome.ok :: rest => 1 + joinedCount rest
  | TaskOutcome.panicked :: _ => 1

/-- Whether the fan-in loop (src/main.rs lines 229-231) runs to completion
without panicking: true exactly when every joined thread succeeded. -/
def joinClean : List TaskOutcome → Bool
  | [] => true
  | TaskOutcome.ok :: rest => joinClean rest
  | TaskOutcome.panicked :: _ => false

/-- Compiled strip regex, abstracted to its pattern text: the `regex` engine
itself stays behind the matcher abstraction. -/
structure Regex where
  pattern : String
deriving DecidableEq

/-- Strip-regex setup (src/main.rs lines 146-151): the `Regex::new` results
(passed in as `compiled`) go through `Iterator::flatten`, which yields the
contents of the `Ok` values and silently discards every `Err`; the collected
vector is the flattened list and no error is surfaced. -/
def strip_regexes (compiled : List (Except String Regex)) : List Regex :=
  compiled.filterMap Except.toOption

/-- Decimal digit accumulation shared by the integer parsers: `none` unless
every character is an ASCII digit. -/
def parseNatDigits (cs : List Char) : Option Nat :=
  match cs with
  | [] => none
  | _ =>
    cs.foldl
      (fun acc c =>
        match acc with
        | none => none
        | some n => if c.isDigit then some (n * 10 + (c.toNat - 48)) else none)
      (some 0)

/-- Signed integer value of a digit block under an optional leading minus
sign. -/
def signedVal (neg : Bool) (n : Nat) : Int :=
  if neg then -(n : Int) else (n : Int)

/-- Digits-and-range part of Rust `<i8 as FromStr>::from_str`: the digit
block must be non-empty and all digits, and the signed value must fit in
`[-128, 127]`; otherwise the parse error that the `expect` on src/main.rs
line 144 turns into the startup panic `utc offset of unexpected format`. -/
def parse_i8_core (neg : Bool) (digits : List Char) : Except String Int :=
  match parseNatDigits digits with
  | none => Except.error "utc offset of unexpected format"
  | some n =>
    if -128 ≤ signedVal neg n ∧ signedVal neg n ≤ 127 then Except.ok (signedVal neg n)
    else Except.error "utc offset of unexpected format"

/-- Rust `<i8 as FromStr>::from_str` (src/main.rs line 143,
`parse::<i8>()`): an optional `+` or `-` sign followed by the digit block of
`parse_i8_core`. -/
def parse_i8 (s : String) : Except String Int :=
  match s.data with
  | '+' :: r => parse_i8_core false r
  | '-' :: r => parse_i8_core true r
  | r => parse_i8_core false r

/-- Rust `<u64 as FromStr>::from_str` (src/main.rs line 161,
`at.parse::<u64>()`): an optional `+` sign, at least one decimal digit, and a
value below `2 ^ 64`; anything else is a parse error, which the `expect`
turns into the startup panic `offset is not a number`. -/
def parse_u64 (s : String) : Except String Nat :=
  let digits : List Char :=
    match s.data with
    | '+' :: r => r
    | r => r
  match parseNatDigits digits with
  | none => Except.error "offset is not a number"
  | some n =>
    if n < 2 ^ 64 then Except.ok n else Except.error "offset is not a number"

/-- UTC offset in seconds, the representation of `time 0.2`'s `UtcOffset`. -/
structure UtcOffset where
  seconds : Int
deriving DecidableEq

/-- Constructor `UtcOffset::hours` of the `time 0.2` crate (called on
src/main.rs line 139): `seconds = hours * 3600`, with no range validation of
any kind. -/
def UtcOffset.hours (h : Int) : UtcOffset :=
  ⟨h * 3600⟩

/-- UTC-offset argument handling (src/main.rs lines 139-145): parse the
argument as an `i8` and wrap it with `UtcOffset::hours`; the only failure is
the `i8` parse failure. -/
def utc_offset_setup (arg : String) : Except String UtcOffset :=
  match parse_i8 arg with
  | Except.error e => Except.error e
  | Except.ok h => Except.ok (UtcOffset.hours h)

/-- Absolute instant paired with the UTC offset it is expressed in, the
abstraction of `time 0.2`'s `OffsetDateTime`: `instant` is in seconds on a
single absolute timeline (datetime arithmetic is modelled as exact integer
arithmetic on seconds). -/
structure OffsetDateTime where
  instant : Int
  offset : UtcOffset
deriving DecidableEq

/-- Method `OffsetDateTime::to_offset` (src/main.rs line 162): same absolute
instant, re-expressed in the given offset. -/
def OffsetDateTime.to_offset (t : OffsetDateTime) (o : UtcOffset) : OffsetDateTime :=
  ⟨t.instant, o⟩

/-- Addition of a `Duration` of `d` seconds to an `OffsetDateTime`
(src/main.rs line 162, `+ offset_duration`). -/
def OffsetDateTime.addSecs (t : OffsetDateTime) (d : Nat) : OffsetDateTime :=
  ⟨t.instant + (d : Int), t.offset⟩

/-- Time-target resolution (src/main.rs lines 155-163).  A token containing a
colon or a space goes to `PrimitiveDateTime::parse(at, "%F %R")` followed by
`assume_offset`, abstracted as `parse_datetime`; otherwise the token is
parsed as a `u64` minute count `m` and the target is
`OffsetDateTime::now_utc().to_offset(utc_offset) + Duration::from_secs(m * 60)`,
where `now_utc` is the invocation instant (offset 0).  The multiplication
`m * 60` on line 161 is performed in `u64`, so the second count passed to
`Duration::from_secs` is `m * 60 % 2 ^ 64` — the wrapping this
multiplication has in release builds; a debug build panics at that overflow
instead, so in neither build profile does the program produce the exact
product once `m * 60 ≥ 2 ^ 64`.  Rust `str::contains(char)` is membership of
the character in the string, phrased on the character list so that it is
decidable by structural recursion. -/
def resolve_target (parse_datetime : String → UtcOffset → Except String OffsetDateTime)
    (now_utc : Int) (off : UtcOffset) (atArg : String) : Except String OffsetDateTime :=
  if atArg.data.contains ':' || atArg.data.contains ' ' then
    parse_datetime atArg off
  else
    match parse_u64 atArg with
    | Except.error e => Except.error e
    | Except.ok m =>
      Except.ok (((OffsetDateTime.mk now_utc ⟨0⟩).to_offset off).addSecs (m * 60 % 2 ^ 64))

/-- Grapheme-cluster list of the cleaned description `ééé`: three clusters,
each the single two-byte character U+00E9, so 3 clusters but 6 UTF-8 bytes. -/
def gsC2 : List String := ["é", "é", "é"]

/-- Grapheme-cluster list of the cleaned description `abcdefhi.com`: twelve
one-byte clusters, whose truncated-away tail at budget 6 is `hi.com`. -/
def gsC1 : List String := ["a", "b", "c", "d", "e", "f", "h", "i", ".", "c", "o", "m"]

theorem mem_dedupAdj : ∀ (l : List String) (x : String), x ∈ dedupAdj l ↔ x ∈ l
  | [], x => by simp [dedupAdj]
  | [a], x => by simp [dedupAdj]
  | a :: b :: rest, x => by
    have ih := mem_dedupAdj (b :: rest) x
    simp only [dedupAdj]
    split
    · next h =>
      subst h
      rw [ih]
      simp
    · simp [ih]

theorem pairwise_lt_dedupAdj :
    ∀ l : List String, l.Pairwise (· ≤ ·) → (dedupAdj l).Pairwise (· < ·)
  | [], _ => by simp [dedupAdj]
  | [a], _ => by simp [dedupAdj]
  | a :: b :: rest, h => by
    rcases List.pairwise_cons.mp h with ⟨ha, hbr⟩
    have ih := pairwise_lt_dedupAdj (b :: rest) hbr
    simp only [dedupAdj]
    split
    · exact ih
    · next hne =>
      refine List.pairwise_cons.mpr ⟨?_, ih⟩
      intro x hx
      have hxmem : x ∈ b :: rest := (mem_dedupAdj _ x).mp hx
      have hab : a < b := lt_of_le_of_ne (ha b (List.mem_cons_self b rest)) hne
      rcases List.mem_cons.mp hxmem with rfl | hxr
      · exact hab
      · exact lt_of_lt_of_le hab (List.rel_of_pairwise_cons hbr hxr)

theorem sorted_sortStrings (l : List String) : (sortStrings l).Pairwise (· ≤ ·) := by
  haveI h1 : IsTotal String (fun a b : String => a.toList ≤ b.toList) :=
    ⟨fun a b => le_total a.toList b.toList⟩
  haveI h2 : IsTrans String (fun a b : String => a.toList ≤ b.toList) :=
    ⟨fun _ _ _ hab hbc => le_trans hab hbc⟩
  have hs := List.sorted_insertionSort (fun a b : String => a.toList ≤ b.toList) l
  exact hs.imp fun hab => String.le_iff_toList_le.mpr hab

theorem mem_sortStrings (l : List String) (x : String) : x ∈ sortStrings l ↔ x ∈ l :=
  (List.perm_insertionSort (fun a b : String => a.toList ≤ b.toList) l).mem_iff

theorem pairwise_lt_url_matches (ms : List String) :
    (url_matches ms).Pairwise (· < ·) :=
  pairwise_lt_dedupAdj _ (sorted_sortStrings ms)

theorem mem_url_matches (ms : List String) (x : String) :
    x ∈ url_matches ms ↔ x ∈ ms := by
  rw [url_matches, mem_dedupAdj, mem_sortStrings]

theorem utf8ByteSize_go_cons (c : Char) (cs : List Char) :
    String.utf8ByteSize.go (c :: cs) = String.utf8ByteSize.go cs + c.utf8Size :=
  rfl

theorem utf8ByteSize_go_append (l₁ l₂ : List Char) :
    String.utf8ByteSize.go (l₁ ++ l₂)
      = String.utf8ByteSize.go l₁ + String.utf8ByteSize.go l₂ := by
  induction l₁ with
  | nil => simp [String.utf8ByteSize.go]
  | cons c cs ih =>
    rw [List.cons_append, utf8ByteSize_go_cons, utf8ByteSize_go_cons, ih]
    omega

theorem utf8ByteSize_append (a b : String) :
    (a ++ b).utf8ByteSize = a.utf8ByteSize + b.utf8ByteSize := by
  cases a with
  | mk da =>
    cases b with
    | mk db => exact utf8ByteSize_go_append da db

theorem one_le_utf8ByteSize (s : String) (h : s ≠ "") : 1 ≤ s.utf8ByteSize := by
  cases s with
  | mk l =>
    cases l with
    | nil => exact absurd rfl h
    | cons c cs =>
      show 1 ≤ String.utf8ByteSize.go cs + c.utf8Size
      have := c.utf8Size_pos
      omega

theorem string_append_assoc (a b c : String) : a ++ b ++ c = a ++ (b ++ c) := by
  cases a
  cases b
  cases c
  show String.mk _ = String.mk _
  rw [List.append_assoc]

theorem string_append_empty (a : String) : a ++ "" = a := by
  cases a
  show String.mk _ = String.mk _
  rw [List.append_nil]

theorem string_empty_append (a : String) : "" ++ a = a :=
  rfl

theorem foldl_append_strings (l : List String) :
    ∀ init : String, l.foldl (fun r s => r ++ s) init = init ++ String.join l := by
  induction l with
  | nil => intro init; exact (string_append_empty init).symm
  | cons a l ih =>
    intro init
    have hj : String.join (a :: l) = a ++ String.join l := by
      show (a :: l).foldl (fun r s => r ++ s) "" = a ++ String.join l
      rw [List.foldl_cons, ih ("" ++ a), string_empty_append]
    rw [hj, List.foldl_cons, ih (init ++ a), string_append_assoc]

theorem join_cons (a : String) (l : List String) :
    String.join (a :: l) = a ++ String.join l := by
  show (a :: l).foldl (fun r s => r ++ s) "" = a ++ String.join l
  rw [List.foldl_cons, foldl_append_strings l ("" ++ a), string_empty_append]

theorem length_le_join_utf8ByteSize (gs : List String) (h : ∀ g ∈ gs, g ≠ "") :
    gs.length ≤ (String.join gs).utf8ByteSize := by
  induction gs with
  | nil => simp
  | cons g rest ih =>
    rw [join_cons, utf8ByteSize_append]
    have h1 : 1 ≤ g.utf8ByteSize :=
      one_le_utf8ByteSize g (h g (List.mem_cons_self g rest))
    have h2 : rest.length ≤ (String.join rest).utf8ByteSize :=
      ih (fun x hx => h x (List.mem_cons_of_mem g hx))
    simp only [List.length_cons]
    omega

theorem joinClean_ok_append (rest : List TaskOutcome) :
    ∀ pre : List TaskOutcome, (∀ o ∈ pre, o = TaskOutcome.ok) →
      joinClean (pre ++ rest) = joinClean rest
  | [], _ => rfl
  | a :: l, h => by
    have ha : a = TaskOutcome.ok := h a (List.mem_cons_self a l)
    subst ha
    show joinClean (l ++ rest) = joinClean rest
    exact joinClean_ok_append rest l (fun o ho => h o (List.mem_cons_of_mem _ ho))

theorem joinedCount_ok_append (rest : List TaskOutcome) :
    ∀ pre : List TaskOutcome, (∀ o ∈ pre, o = TaskOutcome.ok) →
      joinedCount (pre ++ rest) = pre.length + joinedCount rest
  | [], _ => by simp [joinedCount]
  | a :: l, h => by
    have ha : a = TaskOutcome.ok := h a (List.mem_cons_self a l)
    subst ha
    show 1 + joinedCount (l ++ rest) = (l.length + 1) + joinedCount rest
    rw [joinedCount_ok_append rest l (fun o ho => h o (List.mem_cons_of_mem _ ho))]
    omega

/-- C7: with `include_all_day = false` the Event Filter returns the input
sequence with exactly the all-day events removed — the result is a sublist of
the input (relative order preserved), contains no all-day event, and keeps
every non-all-day event — and it is idempotent: a sequence containing no
all-day event is returned unchanged. -/
theorem C7_filter_all_day (events : List KhalEvent) :
    List.Sublist (filterEvents false events) events ∧
    (∀ e ∈ filterEvents false events, e.is_all_day = false) ∧
    (∀ e ∈ events, e.is_all_day = false → e ∈ filterEvents false events) ∧
    filterEvents false (filterEvents false events) = filterEvents false events ∧
    ((∀ e ∈ events, e.is_all_day = false) → filterEvents false events = events) := by
  have hrw : ∀ l : List KhalEvent,
      filterEvents false l = l.filter (fun e => !e.is_all_day) := fun _ => rfl
  refine ⟨?_, ?_, ?_, ?_, ?_⟩
  · rw [hrw]
    exact List.filter_sublist events
  · intro e he
    rw [hrw] at he
    have := (List.mem_filter.mp he).2
    simpa using this
  · intro e he hnd
    rw [hrw]
    exact List.mem_filter.mpr ⟨he, by simpa using hnd⟩
  · rw [hrw, hrw]
    exact List.filter_eq_self.mpr fun a ha => (List.mem_filter.mp ha).2
  · intro hall
    rw [hrw]
    exact List.filter_eq_self.mpr fun a ha => by simpa using hall a ha

/-- Witness for C7: a concrete run of the filter on a list whose single event
is not all-day, through the idempotence conjunct of `C7_filter_all_day`. -/
theorem C7_filter_all_day_witness :
    filterEvents false [KhalEvent.mk "standup" "daily sync" "10:00-10:15" "" false]
      = [KhalEvent.mk "standup" "daily sync" "10:00-10:15" "" false] :=
  (C7_filter_all_day [KhalEvent.mk "standup" "daily sync" "10:00-10:15" "" false]).2.2.2.2
    (by decide)

/-- C8: for any sequence of link matches found in the truncated tail —
repeated or unordered occurrences included — the extracted link list is
sorted lexicographically and deduplicated: it has no duplicate, its members
are exactly the matched strings, and each matched string appears in it
exactly once. -/
theorem C8_links_sorted_dedup (ms : List String) :
    (url_matches ms).Sorted (· ≤ ·) ∧
    (url_matches ms).Nodup ∧
    (∀ u, u ∈ url_matches ms ↔ u ∈ ms) ∧
    (∀ u ∈ ms, (url_matches ms).count u = 1) := by
  have hlt := pairwise_lt_url_matches ms
  have hs : (url_matches ms).Sorted (· ≤ ·) := hlt.imp le_of_lt
  have hn : (url_matches ms).Nodup := hlt.imp ne_of_lt
  refine ⟨hs, hn, mem_url_matches ms, ?_⟩
  intro u hu
  exact List.count_eq_one_of_mem hn ((mem_url_matches ms u).mpr hu)

/-- Witness for C8 on a concrete match list with a repeated, unordered
occurrence: the member/count conjuncts of `C8_links_sorted_dedup` evaluated
at it, together with the concrete value of the link list. -/
theorem C8_links_sorted_dedup_witness :
    url_matches ["b.co", "a.io", "b.co"] = ["a.io", "b.co"] ∧
    ("b.co" ∈ url_matches ["b.co", "a.io", "b.co"] ↔ "b.co" ∈ ["b.co", "a.io", "b.co"]) ∧
    (url_matches ["b.co", "a.io", "b.co"]).count "b.co" = 1 :=
  ⟨by decide,
   (C8_links_sorted_dedup ["b.co", "a.io", "b.co"]).2.2.1 "b.co",
   (C8_links_sorted_dedup ["b.co", "a.io", "b.co"]).2.2.2 "b.co" (by decide)⟩

/-- Counterexample to C2: the cleaned description `ééé` has 3 grapheme
clusters, within the budget N = 3, yet the branch on src/main.rs line 199
compares the budget with `stripped_desc.len()` — the UTF-8 byte length 6 —
so it truncates and the display body becomes `ééé...` instead of the
unchanged `ééé`.  The matcher may be the constant-empty one because the
scanned text is empty here (all clusters were consumed) and `URL_REGEX` has
no match in the empty string. -/
theorem C2_byte_length_counterexample :
    gsC2.length ≤ 3 ∧
    short_desc (fun _ => []) 3 gsC2 = "ééé..." ∧
    short_desc (fun _ => []) 3 gsC2 ≠ String.join gsC2 :=
  ⟨by decide, by decide, by decide⟩

/-- C2 amended: if the cleaned description's UTF-8 byte length (not its
grapheme-cluster count, which the code never compares against the budget) is
at most N, the display body before the time-range suffix step is the cleaned
description unchanged — no ellipsis, no link harvesting, and the extracted
link list is empty. -/
theorem C2_short_enough_unchanged (matcher : String → List String) (n : Nat)
    (gs : List String) (h : (String.join gs).utf8ByteSize ≤ n) :
    short_desc matcher n gs = String.join gs ∧ extracted_links matcher n gs = [] := by
  have hnot : ¬ n < (String.join gs).utf8ByteSize := by omega
  constructor
  · unfold short_desc
    rw [if_neg hnot]
  · unfold extracted_links
    rw [if_neg hnot]

/-- Witness for the amended C2 at a concrete in-budget description. -/
theorem C2_short_enough_unchanged_witness :
    short_desc (fun _ => []) 5 ["hello"] = String.join ["hello"] ∧
    extracted_links (fun _ => []) 5 ["hello"] = [] :=
  C2_short_enough_unchanged (fun _ => []) 5 ["hello"] (by decide)

/-- C5: truncation never splits a grapheme cluster — the kept part of the
display body is a whole-cluster prefix of the cleaned description consisting
of exactly `min N total_clusters` clusters, and the display body extends that
kept text.  The hypothesis states the segmentation invariant that grapheme
clusters are non-empty.  In the truncating branch the kept clusters are
`gs.take N` (length `min N total`); in the other branch all clusters are
kept, and the budget `N`, being at least the byte count, is at least the
cluster count, so `min N total = total` there too. -/
theorem C5_cluster_boundary (matcher : String → List String) (n : Nat)
    (gs : List String) (h : ∀ g ∈ gs, g ≠ "") :
    (kept_clusters n gs).length = min n gs.length ∧
    kept_clusters n gs <+: gs ∧
    ∃ t, short_desc matcher n gs = String.join (kept_clusters n gs) ++ t := by
  by_cases hc : n < (String.join gs).utf8ByteSize
  · refine ⟨?_, ?_, ?_⟩
    · rw [kept_clusters, if_pos hc, List.length_take]
    · rw [kept_clusters, if_pos hc]
      exact List.take_prefix n gs
    · refine ⟨"..." ++ String.join (find_links (matcher (String.join (scanned_tail n gs)))), ?_⟩
      rw [kept_clusters, if_pos hc]
      unfold short_desc
      rw [if_pos hc, foldl_append_strings, string_append_assoc]
  · have hle : (String.join gs).utf8ByteSize ≤ n := by omega
    have hlen : gs.length ≤ n := le_trans (length_le_join_utf8ByteSize gs h) hle
    refine ⟨?_, ?_, ⟨"", ?_⟩⟩
    · rw [kept_clusters, if_neg hc]
      omega
    · rw [kept_clusters, if_neg hc]
    · rw [kept_clusters, if_neg hc]
      unfold short_desc
      rw [if_neg hc, string_append_empty]

/-- Witness for C5 at a concrete truncating input with a multi-byte cluster:
budget 2, clusters `["ab", "é"]` (2 clusters, 4 bytes). -/
theorem C5_cluster_boundary_witness :
    (kept_clusters 2 ["ab", "é"]).length = min 2 (["ab", "é"] : List String).length ∧
    kept_clusters 2 ["ab", "é"] <+: ["ab", "é"] ∧
    ∃ t, short_desc (fun _ => []) 2 ["ab", "é"] = String.join (kept_clusters 2 ["ab", "é"]) ++ t :=
  C5_cluster_boundary (fun _ => []) 2 ["ab", "é"] (by decide)

/-- C10 (implicit): when truncation occurs, the display body is exactly the
kept clusters, then the ellipsis `...`, then — directly concatenated, with no
separator before the first fragment or between fragments — one fragment
`<a href="URL"></a>` (empty anchor text) per extracted link, in the
extracted-link order. -/
theorem C10_fragments_after_ellipsis (matcher : String → List String) (n : Nat)
    (gs : List String) (h : n < (String.join gs).utf8ByteSize) :
    short_desc matcher n gs
      = String.join (gs.take n) ++ "..."
          ++ String.join ((extracted_links matcher n gs).map
              (fun u => "<a href=\"" ++ u ++ "\"></a>")) := by
  unfold short_desc extracted_links
  rw [if_pos h, if_pos h, foldl_append_strings]
  rfl

/-- Witness for C10: a concrete truncating run whose tail matcher reports an
unordered, repeated match list; the body carries the two fragments sorted,
deduplicated, and concatenated directly after the ellipsis. -/
theorem C10_fragments_after_ellipsis_witness :
    short_desc (fun _ => ["x.co", "a.io", "x.co"]) 1 ["a", "b", "c"]
      = "a...<a href=\"a.io\"></a><a href=\"x.co\"></a>" :=
  (C10_fragments_after_ellipsis (fun _ => ["x.co", "a.io", "x.co"]) 1 ["a", "b", "c"]
      (by decide)).trans (by decide)

/-- C1 failing input: budget N = 6 and cleaned description `abcdefhi.com`.
The truncated-away tail (the clusters after the first 6) is `hi.com`, which
`URL_REGEX` matches in full (domain plus top-level-domain), so per the claim
it must be scanned and the link returned.  The code instead scans the
clusters after index 2N = 12 — on src/main.rs line 202 the `take(desc_chars)`
already advanced the `by_ref` grapheme iterator, and line 205 then skips
`desc_chars` further clusters — which here is the empty string, so nothing is
extracted and the body is bare `abcdef...`.  The matcher used models
`URL_REGEX` on the two texts that occur: no match in the empty string, and
the whole-match `hi.com` on the tail text `hi.com`. -/
theorem C1_tail_scan_bug :
    String.join (gsC1.drop 6) = "hi.com" ∧
    scanned_tail 6 gsC1 = [] ∧
    short_desc (fun s => if s = "" then [] else ["hi.com"]) 6 gsC1 = "abcdef..." ∧
    extracted_links (fun s => if s = "" then [] else ["hi.com"]) 6 gsC1 = [] :=
  ⟨by decide, by decide, by decide, by decide⟩

/-- Counterexample to C3: with two spawned tasks whose first panicked, the
fan-in loop of src/main.rs lines 229-231 joins the first handle, and the
`expect` on the `Err` join result panics the main thread, so only 1 of the 2
tasks is ever joined — the run does not complete the join over all tasks. -/
theorem C3_join_abort_counterexample :
    joinedCount [TaskOutcome.panicked, TaskOutcome.ok] = 1 ∧
    joinClean [TaskOutcome.panicked, TaskOutcome.ok] = false ∧
    [TaskOutcome.panicked, TaskOutcome.ok].length = 2 :=
  ⟨rfl, rfl, rfl⟩

/-- C3 amended: for N surviving events exactly N notification threads are
spawned, all before any join, so every event's notification is attempted; the
main thread then joins the handles in spawn order, and when all tasks
succeeded it joins all N and finishes cleanly — but the `expect` on a failed
join panics the main thread, so the first failed task ends the join loop
after its own join and the tasks after it are never joined. -/
theorem C3_fan_out_join_order (notify : KhalEvent → TaskOutcome)
    (events : List KhalEvent) (pre post : List TaskOutcome)
    (hpre : ∀ o ∈ pre, o = TaskOutcome.ok) :
    (dispatch_notifications notify events).length = events.length ∧
    joinClean pre = true ∧
    joinedCount pre = pre.length ∧
    joinClean (pre ++ TaskOutcome.panicked :: post) = false ∧
    joinedCount (pre ++ TaskOutcome.panicked :: post) = pre.length + 1 := by
  refine ⟨List.length_map events notify, ?_, ?_, ?_, ?_⟩
  · have h := joinClean_ok_append [] pre hpre
    rw [List.append_nil] at h
    exact h
  · have h := joinedCount_ok_append [] pre hpre
    rw [List.append_nil] at h
    simpa [joinedCount] using h
  · rw [joinClean_ok_append (TaskOutcome.panicked :: post) pre hpre]
    rfl
  · rw [joinedCount_ok_append (TaskOutcome.panicked :: post) pre hpre]
    rfl

/-- Witness for the amended C3: one event dispatched, a successful prefix of
one join, and a panicked task followed by one more task that the loop never
reaches. -/
theorem C3_fan_out_join_order_witness :
    (dispatch_notifications (fun _ => TaskOutcome.ok)
        [KhalEvent.mk "standup" "" "10:00" "" false]).length
      = [KhalEvent.mk "standup" "" "10:00" "" false].length ∧
    joinClean [TaskOutcome.ok] = true ∧
    joinedCount [TaskOutcome.ok] = [TaskOutcome.ok].length ∧
    joinClean ([TaskOutcome.ok] ++ TaskOutcome.panicked :: [TaskOutcome.ok]) = false ∧
    joinedCount ([TaskOutcome.ok] ++ TaskOutcome.panicked :: [TaskOutcome.ok])
      = [TaskOutcome.ok].length + 1 :=
  C3_fan_out_join_order (fun _ => TaskOutcome.ok)
    [KhalEvent.mk "standup" "" "10:00" "" false] [TaskOutcome.ok] [TaskOutcome.ok]
    (by decide)

/-- Counterexample to C4: a malformed strip pattern whose compilation fails
is silently dropped by the `flatten` on src/main.rs line 149 — startup
proceeds normally with the remaining compiled patterns and no `InvalidPattern`
(or any other) failure is raised, the setup being an infallible value of type
`Vec<Regex>`. -/
theorem C4_silent_drop_counterexample :
    strip_regexes [Except.error "unclosed group", Except.ok (Regex.mk "[0-9]+")]
      = [Regex.mk "[0-9]+"] :=
  rfl

/-- C4 amended: a malformed cleanup (strip) pattern is silently ignored at
startup, not reported: dropping a failed compilation result from the argument
list leaves the compiled pattern list unchanged, and when every pattern
compiles the list is exactly the compiled patterns. -/
theorem C4_malformed_pattern_ignored (pre post : List (Except String Regex))
    (e : String) (rs : List Regex) :
    strip_regexes (pre ++ Except.error e :: post) = strip_regexes (pre ++ post) ∧
    strip_regexes (rs.map Except.ok) = rs := by
  constructor
  · unfold strip_regexes
    rw [List.filterMap_append, List.filterMap_append, List.filterMap_cons]
    simp [Except.toOption]
  · unfold strip_regexes
    induction rs with
    | nil => rfl
    | cons r rest ih =>
      rw [List.map_cons, List.filterMap_cons]
      simp only [Except.toOption]
      rw [ih]

theorem parse_i8_core_ok_range (neg : Bool) (digits : List Char) (h : Int)
    (hok : parse_i8_core neg digits = Except.ok h) : -128 ≤ h ∧ h ≤ 127 := by
  unfold parse_i8_core at hok
  split at hok
  · exact absurd hok (by simp)
  · split at hok
    · next hrange =>
      cases hok
      exact hrange
    · exact absurd hok (by simp)

theorem parse_i8_ok_range (s : String) (h : Int)
    (hok : parse_i8 s = Except.ok h) : -128 ≤ h ∧ h ≤ 127 := by
  unfold parse_i8 at hok
  split at hok <;> exact parse_i8_core_ok_range _ _ _ hok

/-- Counterexample to C6: the offset argument `25` lies outside the claimed
accepted range -24..24, yet startup accepts it — `parse::<i8>()` succeeds and
`UtcOffset::hours` (time 0.2) applies it without any range validation, so no
`InvalidOffset` failure occurs. -/
theorem C6_out_of_range_accepted_counterexample :
    utc_offset_setup "25" = Except.ok (UtcOffset.hours 25) ∧
    ¬(-24 ≤ (25 : Int) ∧ (25 : Int) ≤ 24) :=
  ⟨rfl, by decide⟩

/-- C6 amended: the UTC offset argument is accepted exactly when it parses as
a signed 8-bit integer, i.e. for any whole-hour value in -128..=127 — there
is no -24..24 range check anywhere — and an argument that fails the `i8`
parse makes startup fail with the `utc offset of unexpected format` panic. -/
theorem C6_offset_gate_is_i8_parse (s : String) :
    (∀ h : Int, parse_i8 s = Except.ok h →
        -128 ≤ h ∧ h ≤ 127 ∧ utc_offset_setup s = Except.ok (UtcOffset.hours h)) ∧
    (∀ e, parse_i8 s = Except.error e → utc_offset_setup s = Except.error e) := by
  constructor
  · intro h hok
    have hr := parse_i8_ok_range s h hok
    refine ⟨hr.1, hr.2, ?_⟩
    unfold utc_offset_setup
    rw [hok]
  · intro e herr
    unfold utc_offset_setup
    rw [herr]

/-- Witness for the amended C6: both the acceptance of the out-of--24..24 yet
`i8`-parseable offset 25 and the rejection of the non-numeric offset `east`. -/
theorem C6_offset_gate_is_i8_parse_witness :
    (-128 ≤ (25 : Int) ∧ (25 : Int) ≤ 127
        ∧ utc_offset_setup "25" = Except.ok (UtcOffset.hours 25)) ∧
    utc_offset_setup "east" = Except.error "utc offset of unexpected format" :=
  ⟨(C6_offset_gate_is_i8_parse "25").1 25 rfl,
   (C6_offset_gate_is_i8_parse "east").2 "utc offset of unexpected format" rfl⟩

/-- Counterexample to C9 as universally stated: the relative-minutes token
`307445734561825861` (neither colon nor space, parses as a non-negative
integer below `2 ^ 64`) is the smallest token whose `u64` product
`m * 60 = 18446744073709551660` overflows, wrapping to `44` — so at
invocation instant 0 the resolved instant is 44 seconds, not `now` plus `m`
minutes (`18446744073709551660` seconds); a debug build panics at the
multiplication instead of wrapping, so in neither build profile does the
program produce the claimed exact target at this token. -/
theorem C9_overflow_counterexample :
    parse_u64 "307445734561825861" = Except.ok 307445734561825861 ∧
    resolve_target (fun _ _ => Except.error "d") 0 (UtcOffset.hours 9) "307445734561825861"
      = Except.ok (OffsetDateTime.mk 44 (UtcOffset.hours 9)) ∧
    (44 : Int) ≠ ((307445734561825861 * 60 : Nat) : Int) :=
  ⟨rfl, rfl, by decide⟩

/-- C9 amended: for any relative-minutes token (one containing neither a
colon nor a space) parsing as the non-negative integer `m`, the resolved
instant is `now + (m * 60 % 2 ^ 64)` seconds — the `u64` product of
src/main.rs line 161 — and in particular, whenever `m * 60` fits in a `u64`
(every token up to `307445734561825860`), it is exactly `now` plus `m`
minutes; the instant is independent of the UTC offset (and of the
absolute-datetime parser, which is not consulted); a token that does not
parse as a non-negative integer fails with the `offset is not a number`
error (the panic the spec names `InvalidOffsetMinutes`) rather than silently
defaulting. -/
theorem C9_relative_minutes (pd pd' : String → UtcOffset → Except String OffsetDateTime)
    (now : Int) (o o' : UtcOffset) (s : String)
    (hs : (s.data.contains ':' || s.data.contains ' ') = false) :
    (∀ m, parse_u64 s = Except.ok m →
        resolve_target pd now o s
            = Except.ok (OffsetDateTime.mk (now + ((m * 60 % 2 ^ 64 : Nat) : Int)) o) ∧
        (m * 60 < 2 ^ 64 →
          resolve_target pd now o s
              = Except.ok (OffsetDateTime.mk (now + ((m * 60 : Nat) : Int)) o)) ∧
        (resolve_target pd now o s).map OffsetDateTime.instant
            = (resolve_target pd' now o' s).map OffsetDateTime.instant) ∧
    (∀ e, parse_u64 s = Except.error e → resolve_target pd now o s = Except.error e) := by
  have hcond : ¬((s.data.contains ':' || s.data.contains ' ') = true) := by
    rw [hs]
    simp
  constructor
  · intro m hm
    refine ⟨?_, ?_, ?_⟩
    · unfold resolve_target
      rw [if_neg hcond, hm]
      rfl
    · intro hfit
      unfold resolve_target
      rw [if_neg hcond, hm]
      show Except.ok (((OffsetDateTime.mk now (UtcOffset.mk 0)).to_offset o).addSecs
          (m * 60 % 2 ^ 64))
        = Except.ok (OffsetDateTime.mk (now + ((m * 60 : Nat) : Int)) o)
      rw [Nat.mod_eq_of_lt hfit]
      rfl
    · unfold resolve_target
      rw [if_neg hcond, if_neg hcond, hm]
      rfl
  · intro e he
    unfold resolve_target
    rw [if_neg hcond, he]

/-- Witness for C9: the token `90` at invocation instant 1000 — with
`90 * 60 = 5400` far below `2 ^ 64` — resolves to instant `1000 + 5400`
whether the offset is +9 hours or 0 hours, with the absolute-datetime
parsers never consulted. -/
theorem C9_relative_minutes_witness :
    resolve_target (fun _ _ => Except.error "d1") 1000 (UtcOffset.hours 9) "90"
        = Except.ok (OffsetDateTime.mk (1000 + ((90 * 60 : Nat) : Int)) (UtcOffset.hours 9)) ∧
    (resolve_target (fun _ _ => Except.error "d1") 1000 (UtcOffset.hours 9) "90").map
        OffsetDateTime.instant
      = (resolve_target (fun _ _ => Except.error "d2") 1000 (UtcOffset.hours 0) "90").map
        OffsetDateTime.instant :=
  have h := (C9_relative_minutes (fun _ _ => Except.error "d1") (fun _ _ => Except.error "d2")
      1000 (UtcOffset.hours 9) (UtcOffset.hours 0) "90" (by decide)).1 90 rfl
  ⟨h.2.1 (by decide), h.2.2⟩
